import Mathlib

/-!
Shallow embedding of the article relevance pipeline of the `ai_stock_news`
repository: `src/news_fetcher.py`, `src/news_processor.py` and
`src/sentiment_analyzer.py`.

Modelling conventions:
* Python strings are modelled as `String` / `List Char`; `f"{a} {b}"` is
  `a ++ " " ++ b`.
* All patterns in the pipeline are built with `re.escape`, so they are
  literal-text matchers.  A pattern `\b lit \b` compiled with `re.IGNORECASE`
  is modelled positionally: a match at position `i` is a case-folded literal
  match together with a word boundary on both sides (word characters are the
  ASCII `[A-Za-z0-9_]`, which agrees with Python on the ASCII inputs the
  pipeline handles).  `re.search` is the existence of a match position;
  `len(re.findall(...))` is the number of non-overlapping matches found by a
  left-to-right scan.
* Timestamps (`datetime`) are abstract instants modelled as `Nat`; only
  order matters to the pipeline.
* Python exceptions are modelled with `Except`: an operation that can raise
  returns `Except PyExc α`, and `try/except` is explicit case analysis.
-/

/-- ASCII word character, the `\w` class relevant to the pipeline's inputs. -/
def isWordChar (c : Char) : Bool := c.isAlphanum || c = '_'

/-- Whether position `i` of `s` holds a word character (out of range: no). -/
def wordAt (s : List Char) (i : Nat) : Bool :=
  match s[i]? with
  | some c => isWordChar c
  | none => false

/-- The regex word boundary `\b` at position `i` (positions run `0..s.length`). -/
def boundaryAt (s : List Char) (i : Nat) : Bool :=
  (if i = 0 then false else wordAt s (i - 1)) != wordAt s i

/-- Literal match of `pat` at position `i` of `s`. -/
def matchAt (pat s : List Char) (i : Nat) : Bool :=
  (s.drop i).take pat.length == pat

/-- Match of the pattern `\b pat \b` (with `pat` literal) at position `i`. -/
def wordMatchAt (pat s : List Char) (i : Nat) : Bool :=
  matchAt pat s i && boundaryAt s i && boundaryAt s (i + pat.length)

/-- `re.search` for a whole-word literal pattern: some position matches. -/
def searchWord (pat s : List Char) : Bool :=
  (List.range (s.length + 1)).any (fun i => wordMatchAt pat s i)

/-- `re.search` for a plain literal pattern: some position matches. -/
def searchSub (pat s : List Char) : Bool :=
  (List.range (s.length + 1)).any (fun i => matchAt pat s i)

/-- Left-to-right non-overlapping scan counting positions accepted by `m`,
positions running up to `n`; after a hit the scan advances by `skip`
(the match length, at least 1).  `fuel` dominates the number of steps. -/
def countLoop (m : Nat → Bool) (skip n : Nat) : Nat → Nat → Nat
  | 0, _ => 0
  | fuel + 1, i =>
    if n < i then 0
    else if m i then 1 + countLoop m skip n fuel (i + skip)
    else countLoop m skip n fuel (i + 1)

/-- `len(re.findall(...))` for the whole-word literal pattern `pat` in `s`. -/
def countWord (pat s : List Char) : Nat :=
  countLoop (wordMatchAt pat s) (max 1 pat.length) s.length (s.length + 1) 0

/-- `len(re.findall(...))` for the plain literal pattern `pat` in `s`. -/
def countSub (pat s : List Char) : Nat :=
  countLoop (matchAt pat s) (max 1 pat.length) s.length (s.length + 1) 0

/-- ASCII case folding, the effect of `str.lower` / `re.IGNORECASE` here. -/
def lower (s : List Char) : List Char := s.map Char.toLower

/-- `re.compile(r'\b'+re.escape(p)+r'\b', re.IGNORECASE).search(t)`. -/
def pySearchWord (p t : String) : Bool := searchWord (lower p.data) (lower t.data)

/-- `re.compile(re.escape(p), re.IGNORECASE).search(t)`. -/
def pySearchSub (p t : String) : Bool := searchSub (lower p.data) (lower t.data)

/-- `len(re.compile(r'\b'+re.escape(p)+r'\b', re.IGNORECASE).findall(t))`. -/
def pyCountWord (p t : String) : Nat := countWord (lower p.data) (lower t.data)

/-- `len(re.compile(re.escape(p), re.IGNORECASE).findall(t))`. -/
def pyCountSub (p t : String) : Nat := countSub (lower p.data) (lower t.data)

/-- The whole-word, case-insensitive pattern of `p` has a match in `t`
(specification-level form of `pySearchWord`). -/
def MentionsWord (p t : String) : Prop :=
  ∃ i ≤ t.data.length, wordMatchAt (lower p.data) (lower t.data) i = true

instance (p t : String) : Decidable (MentionsWord p t) := by
  unfold MentionsWord; infer_instance

/-- The case-insensitive substring pattern of `p` has a match in `t`. -/
def MentionsSub (p t : String) : Prop :=
  ∃ i ≤ t.data.length, matchAt (lower p.data) (lower t.data) i = true

instance (p t : String) : Decidable (MentionsSub p t) := by
  unfold MentionsSub; infer_instance

theorem searchWord_iff (p t : String) : pySearchWord p t = true ↔ MentionsWord p t := by
  simp [pySearchWord, searchWord, MentionsWord, List.any_eq_true, List.mem_range,
    Nat.lt_succ_iff, lower]

theorem searchSub_iff (p t : String) : pySearchSub p t = true ↔ MentionsSub p t := by
  simp [pySearchSub, searchSub, MentionsSub, List.any_eq_true, List.mem_range,
    Nat.lt_succ_iff, lower]

/-! ## Sentiment classification (`SentimentAnalyzer._analyze_article_sentiment`) -/

inductive Sentiment
  | positive
  | negative
  | neutral
deriving DecidableEq, Repr

/-- The fixed positive-word list of `_analyze_article_sentiment`. -/
def positive_words : List String :=
  ["up", "rise", "gain", "growth", "profit", "positive", "bullish", "outperform",
   "beat", "exceed", "strong", "success", "opportunity", "improve", "advantage"]

/-- The fixed negative-word list of `_analyze_article_sentiment`. -/
def negative_words : List String :=
  ["down", "fall", "drop", "decline", "loss", "negative", "bearish", "underperform",
   "miss", "weak", "fail", "risk", "concern", "problem", "challenge"]

/-- `SentimentAnalyzer._analyze_article_sentiment`, rule-based branch:
`sum(1 for word in words if re.search(r'\b'+re.escape(word)+r'\b', text.lower()))`
for each list, then compare the two counts. -/
def analyze_article_sentiment (text : String) : Sentiment :=
  let positive_count := positive_words.countP (fun word => pySearchWord word text)
  let negative_count := negative_words.countP (fun word => pySearchWord word text)
  if negative_count < positive_count then Sentiment.positive
  else if positive_count < negative_count then Sentiment.negative
  else Sentiment.neutral

/-- The classifier as claim C3 words it: each listed word contributes the
number of ALL of its whole-word occurrences (two occurrences count two),
not merely its presence.  Stated for comparison with the code's
`analyze_article_sentiment`. -/
def claimC3_sentiment (text : String) : Sentiment :=
  let positive_count := (positive_words.map (fun word => pyCountWord word text)).sum
  let negative_count := (negative_words.map (fun word => pyCountWord word text)).sum
  if negative_count < positive_count then Sentiment.positive
  else if positive_count < negative_count then Sentiment.negative
  else Sentiment.neutral

/-! ## Articles and `NewsProcessor` (`src/news_processor.py`) -/

/-- An article record as built by `NewsFetcher.fetch_news` and enriched by
`NewsProcessor.rank_articles` (`relevance_score` is absent before ranking). -/
structure Article where
  title : String
  link : String
  summary : String
  published : String
  published_parsed : Option Nat
  source : String
  source_id : String
  category : String
  relevance_score : Option Nat := none
deriving DecidableEq, Repr

/-- The keep condition of the `filter_articles` loop:
`ticker_match or keyword_match or (not tickers and not keywords)`. -/
def keepArticle (tickers keywords : List String) (article : Article) : Bool :=
  let content := article.title ++ " " ++ article.summary
  let ticker_match := tickers.any (fun t => pySearchWord t content)
  let keyword_match := keywords.any (fun k => pySearchSub k content)
  ticker_match || keyword_match || (tickers.isEmpty && keywords.isEmpty)

/-- `NewsProcessor.filter_articles`.  `tickers` and `keywords` come from the
loaded configuration; `filter_by_preferences` is the caller's flag. -/
def filter_articles (tickers keywords : List String) (articles : List Article)
    (filter_by_preferences : Bool) : List Article :=
  if articles.isEmpty then []
  else if !filter_by_preferences then articles
  else if tickers.isEmpty && keywords.isEmpty then articles
  else
    articles.foldl (fun filtered article =>
      if keepArticle tickers keywords article
      then filtered ++ [article]
      else filtered) []

/-- The relevance score formula of `NewsProcessor.rank_articles`:
`ticker_count + keyword_count + (title_ticker_count + title_keyword_count) * 2`
with every count a `len(pattern.findall(...))` sum. -/
def relevance_score_of (tickers keywords : List String) (title summary : String) : Nat :=
  let content := title ++ " " ++ summary
  let ticker_count := (tickers.map (fun t => pyCountWord t content)).sum
  let keyword_count := (keywords.map (fun k => pyCountSub k content)).sum
  let title_ticker_count := (tickers.map (fun t => pyCountWord t title)).sum
  let title_keyword_count := (keywords.map (fun k => pyCountSub k title)).sum
  ticker_count + keyword_count + (title_ticker_count + title_keyword_count) * 2

/-- The sort key of `rank_articles`: `x.get('relevance_score', 0)`. -/
def scoreKey (a : Article) : Nat := a.relevance_score.getD 0

/-- `a` may come no later than `b` in the descending ranking:
`scoreKey b ≤ scoreKey a`.  Python's `sorted(key=..., reverse=True)` is the
stable sort with respect to this relation. -/
def scoreGE (a b : Article) : Prop := scoreKey b ≤ scoreKey a

instance : DecidableRel scoreGE := fun a b => by unfold scoreGE; infer_instance

instance : IsTotal Article scoreGE := ⟨fun a b => Nat.le_total (scoreKey b) (scoreKey a)⟩

instance : IsTrans Article scoreGE := ⟨fun _ _ _ hab hbc => Nat.le_trans hbc hab⟩

/-- The score enrichment `article['relevance_score'] = relevance_score`
performed on each article by the ranking loop. -/
def assignScore (tickers keywords : List String) (a : Article) : Article :=
  { a with relevance_score := some (relevance_score_of tickers keywords a.title a.summary) }

/-- `NewsProcessor.rank_articles`: score every article, then
`sorted(articles, key=lambda x: x.get('relevance_score', 0), reverse=True)`
(a stable descending sort, modelled by insertion sort for `scoreGE`). -/
def rank_articles (tickers keywords : List String) (articles : List Article) : List Article :=
  if articles.isEmpty then []
  else if tickers.isEmpty && keywords.isEmpty then articles
  else
    let scored := articles.map (fun a =>
      { a with relevance_score := some (relevance_score_of tickers keywords a.title a.summary) })
    List.insertionSort scoreGE scored

theorem orderedInsert_filter_score (k : Nat) (a : Article) (l : List Article) :
    (List.orderedInsert scoreGE a l).filter (fun b => scoreKey b == k) =
      if scoreKey a = k then a :: l.filter (fun b => scoreKey b == k)
      else l.filter (fun b => scoreKey b == k) := by
  induction l with
  | nil =>
    by_cases h : scoreKey a = k <;> simp [List.orderedInsert, List.filter_cons, h]
  | cons b l ih =>
    rw [List.orderedInsert]
    by_cases hab : scoreGE a b
    · by_cases h : scoreKey a = k <;> simp [hab, List.filter_cons, h]
    · have hb : scoreKey a < scoreKey b := Nat.lt_of_not_le hab
      by_cases h : scoreKey a = k
      · have hbk : ¬ (scoreKey b = k) := by omega
        simp [hab, List.filter_cons, h, hbk, ih]
      · by_cases hbk : scoreKey b = k <;> simp [hab, List.filter_cons, h, hbk, ih]

theorem insertionSort_filter_score (k : Nat) (l : List Article) :
    (List.insertionSort scoreGE l).filter (fun b => scoreKey b == k) =
      l.filter (fun b => scoreKey b == k) := by
  induction l with
  | nil => rfl
  | cons a l ih =>
    rw [List.insertionSort, orderedInsert_filter_score]
    by_cases h : scoreKey a = k <;> simp [h, ih, List.filter_cons]

/-! ## `NewsFetcher` (`src/news_fetcher.py`) -/

/-- A parsed feed entry as `feedparser` hands it to `fetch_news`; every field
retrieved with `entry.get(...)` may be absent. -/
structure Entry where
  title : Option String
  link : Option String
  summary : Option String
  description : Option String
  published : Option String
deriving DecidableEq, Repr

/-- The article dict literal built for one surviving entry in `fetch_news`.
`parse` stands for `self._parse_date`. -/
def entryArticle (parse : String → Option Nat) (source_name source_id category : String)
    (e : Entry) : Article :=
  { title := e.title.getD "No title"
    link := e.link.getD ""
    summary := e.summary.getD (e.description.getD "No summary available")
    published := e.published.getD "Unknown date"
    published_parsed := parse (e.published.getD "")
    source := source_name
    source_id := source_id
    category := category }

/-- The cutoff test of `fetch_news`:
`if published and published < cutoff_date: continue`
(a `datetime` is always truthy, so the test is: parsed and strictly older). -/
def dropEntry (parse : String → Option Nat) (cutoff : Nat) (e : Entry) : Bool :=
  match parse (e.published.getD "") with
  | some d => decide (d < cutoff)
  | none => false

/-- The per-feed entry loop of `fetch_news`, appending an article for every
entry that survives the cutoff test, in feed order. -/
def processEntries (parse : String → Option Nat) (cutoff : Nat)
    (source_name source_id category : String) (entries : List Entry) : List Article :=
  entries.foldl (fun acc e =>
    if dropEntry parse cutoff e then acc
    else acc ++ [entryArticle parse source_name source_id category e]) []

/-- The final sort key of `fetch_news`:
`x.get('published_parsed', datetime.min)`.  The article dict always carries
the key `'published_parsed'` (possibly with value `None`), so `dict.get`
returns the stored value and the `datetime.min` default is never produced. -/
def pyKey (a : Article) : Option Nat := a.published_parsed

/-- Python's `<` on the sort keys: ordering a `None` against anything
(including another `None`) raises `TypeError`, modelled as `Except.error`. -/
def pyLtOpt : Option Nat → Option Nat → Except Unit Bool
  | some x, some y => Except.ok (decide (x < y))
  | _, _ => Except.error ()

/-- One insertion step of the stable descending sort `list.sort(key=...,
reverse=True)`, with every key comparison able to raise. -/
def pyInsertDesc (key : Article → Option Nat) (a : Article) :
    List Article → Except Unit (List Article)
  | [] => Except.ok [a]
  | b :: l => do
    let lt ← pyLtOpt (key a) (key b)
    if lt then
      let r ← pyInsertDesc key a l
      return b :: r
    else
      return a :: b :: l

/-- `list.sort(key=..., reverse=True)`: a stable descending comparison sort
whose comparisons can raise `TypeError`. -/
def pySortDesc (key : Article → Option Nat) : List Article → Except Unit (List Article)
  | [] => Except.ok []
  | a :: l => do
    let r ← pySortDesc key l
    pyInsertDesc key a r

/-- One feed's worth of input to `fetch_news`: the owning source's name and
id, the feed's category, and the entries `feedparser` returned for it. -/
structure FeedBatch where
  source_name : String
  source_id : String
  category : String
  entries : List Entry
deriving Repr

/-- `NewsFetcher.fetch_news` for loaded sources and preferences: accumulate
the surviving articles of every feed in order, then sort by
`published_parsed` descending. -/
def fetch_news (parse : String → Option Nat) (cutoff : Nat) (feeds : List FeedBatch) :
    Except Unit (List Article) :=
  let all_articles := feeds.foldl (fun acc fb =>
    acc ++ processEntries parse cutoff fb.source_name fb.source_id fb.category fb.entries) []
  pySortDesc pyKey all_articles

/-! ## `NewsFetcher._parse_date` -/

/-- The `strptime` format list tried by `_parse_date`, in order. -/
def date_formats : List String :=
  ["%a, %d %b %Y %H:%M:%S %z", "%a, %d %b %Y %H:%M:%S %Z", "%Y-%m-%dT%H:%M:%S%z",
   "%Y-%m-%dT%H:%M:%SZ", "%Y-%m-%d %H:%M:%S", "%a %b %d %H:%M:%S %Y"]

/-- The first parsing attempt of `_parse_date`:
`try: time_tuple = feedparser._parse_date(date_str); if time_tuple: return
datetime(*time_tuple[:6]).replace(tzinfo=None)` with `except Exception: pass`.
`fpParse` models the external `feedparser._parse_date` (which may raise, or
return `None`, or a time tuple); `mkDatetime` models the `datetime`
constructor on the tuple's first six fields (which may raise `ValueError`).
Every exception is caught, yielding `none`, and a falsy (`None`) tuple also
falls through to the format loop. -/
def firstAttempt (fpParse : String → Except Unit (Option (Nat × Nat × Nat × Nat × Nat × Nat)))
    (mkDatetime : Nat × Nat × Nat × Nat × Nat × Nat → Except Unit Nat)
    (date_str : String) : Option Nat :=
  match fpParse date_str with
  | Except.error _ => none
  | Except.ok none => none
  | Except.ok (some t) =>
    match mkDatetime t with
    | Except.error _ => none
    | Except.ok d => some d

/-- The `strptime` loop of `_parse_date`: try each format in order, a
`ValueError` (`Except.error`, the only exception `strptime` raises on a
non-matching string) continues with the next format. -/
def tryFormats (strptime : String → String → Except Unit Nat) (date_str : String) :
    List String → Option Nat
  | [] => none
  | fmt :: rest =>
    match strptime date_str fmt with
    | Except.ok d => some d
    | Except.error _ => tryFormats strptime date_str rest

/-- `NewsFetcher._parse_date`: empty string short-circuits to `None`; then the
`feedparser` attempt, then the format loop; all failure paths end in `None`
(after a logged warning), never an uncaught exception. -/
def parse_date (fpParse : String → Except Unit (Option (Nat × Nat × Nat × Nat × Nat × Nat)))
    (mkDatetime : Nat × Nat × Nat × Nat × Nat × Nat → Except Unit Nat)
    (strptime : String → String → Except Unit Nat) (date_str : String) : Option Nat :=
  if date_str = "" then none
  else
    match firstAttempt fpParse mkDatetime date_str with
    | some d => some d
    | none => tryFormats strptime date_str date_formats

/-! ## Sentiment aggregation (`SentimentAnalyzer.analyze_sentiment`) -/

/-- The record appended to a ticker's `'articles'` list. -/
structure SentRecord where
  title : String
  sentiment : Sentiment
  source : String
  link : String
deriving DecidableEq, Repr

/-- A per-ticker sentiment bucket
`{'positive': 0, 'negative': 0, 'neutral': 0, 'articles': []}`. -/
structure Bucket where
  positive : Nat
  negative : Nat
  neutral : Nat
  articles : List SentRecord
deriving DecidableEq, Repr

def emptyBucket : Bucket := ⟨0, 0, 0, []⟩

/-- `sentiment_results[ticker][article_sentiment] += 1` followed by the append
to `sentiment_results[ticker]['articles']`. -/
def bumpBucket (b : Bucket) (s : Sentiment) (r : SentRecord) : Bucket :=
  match s with
  | Sentiment.positive => { b with positive := b.positive + 1, articles := b.articles ++ [r] }
  | Sentiment.negative => { b with negative := b.negative + 1, articles := b.articles ++ [r] }
  | Sentiment.neutral => { b with neutral := b.neutral + 1, articles := b.articles ++ [r] }

/-- Keyed in-place update of the results dict (keys are unique by
construction, coming from a dict comprehension). -/
def updateBucket (m : List (String × Bucket)) (t : String) (f : Bucket → Bucket) :
    List (String × Bucket) :=
  m.map (fun p => if p.1 = t then (p.1, f p.2) else p)

/-- Key de-duplication performed by the dict comprehensions of
`analyze_sentiment` (`{ticker: ... for ticker in tickers}`): keep the first
occurrence of every key not inserted before, in order.  `seen` are the keys
already inserted. -/
def dedupKeysAux : List String → List String → List String
  | [], _ => []
  | t :: ts, seen =>
    if seen.contains t then dedupKeysAux ts seen
    else t :: dedupKeysAux ts (t :: seen)

def dedupKeys (l : List String) : List String := dedupKeysAux l []

theorem mem_dedupKeysAux :
    ∀ (l seen : List String) (x : String),
      x ∈ dedupKeysAux l seen ↔ x ∈ l ∧ x ∉ seen := by
  intro l
  induction l with
  | nil => intro seen x; simp [dedupKeysAux]
  | cons t ts ih =>
    intro seen x
    rw [dedupKeysAux]
    by_cases hc : seen.contains t = true
    · have htm : t ∈ seen := by
        rw [List.contains_iff_exists_mem_beq] at hc
        obtain ⟨u, hu, he⟩ := hc
        rw [beq_iff_eq] at he
        rw [he]
        exact hu
      rw [if_pos hc, ih seen x, List.mem_cons]
      constructor
      · exact fun hh => ⟨Or.inr hh.1, hh.2⟩
      · rintro ⟨hx | hx, hs⟩
        · exact absurd (hx ▸ htm) hs
        · exact ⟨hx, hs⟩
    · have htm : t ∉ seen := by
        intro hmem
        exact hc (List.contains_iff_exists_mem_beq.mpr ⟨t, hmem, beq_iff_eq.mpr rfl⟩)
      rw [if_neg hc, List.mem_cons, ih (t :: seen) x, List.mem_cons, List.mem_cons]
      by_cases hx : x = t
      · simp [hx, htm]
      · simp [hx]

theorem mem_dedupKeys (l : List String) (x : String) : x ∈ dedupKeys l ↔ x ∈ l := by
  rw [dedupKeys, mem_dedupKeysAux]
  simp

/-- The body of the per-article loop of `analyze_sentiment`: find the tickers
the article mentions, skip the article when there are none, otherwise
classify once and update every mentioned ticker's bucket. -/
def processArticleSentiment (tickersD : List String) (classify : String → Sentiment)
    (results : List (String × Bucket)) (article : Article) : List (String × Bucket) :=
  let content := article.title ++ " " ++ article.summary
  let mentioned := tickersD.filter (fun t => pySearchWord t content)
  if mentioned.isEmpty then results
  else
    let s := classify content
    mentioned.foldl (fun res t =>
      updateBucket res t (fun b => bumpBucket b s
        ⟨article.title, s, article.source, article.link⟩)) results

/-- `SentimentAnalyzer.analyze_sentiment`.  `tickers` is the configured list
(dict construction de-duplicates it, keeping first occurrences); `classify`
stands for `self._analyze_article_sentiment`, which returns one of the three
labels on every path (the AI branch included, thanks to its fallback). -/
def analyze_sentiment (tickers : List String) (classify : String → Sentiment)
    (articles : List Article) : List (String × Bucket) :=
  if articles.isEmpty then []
  else if tickers.isEmpty then []
  else
    let tickersD := dedupKeys tickers
    let init := tickersD.map (fun t => (t, emptyBucket))
    articles.foldl (processArticleSentiment tickersD classify) init

/-! ## Helper lemmas -/

theorem foldl_keep_eq {α β : Type} (p : α → Bool) (g : α → β) :
    ∀ (l : List α) (acc : List β),
      l.foldl (fun acc a => if p a then acc ++ [g a] else acc) acc =
        acc ++ (l.filter p).map g := by
  intro l
  induction l with
  | nil => intro acc; simp
  | cons a l ih =>
    intro acc
    by_cases h : p a = true
    · simp [List.foldl_cons, h, ih, List.filter_cons]
    · simp only [Bool.not_eq_true] at h
      simp [List.foldl_cons, h, ih, List.filter_cons]

theorem foldl_drop_eq {α β : Type} (p : α → Bool) (g : α → β) :
    ∀ (l : List α) (acc : List β),
      l.foldl (fun acc a => if p a then acc else acc ++ [g a]) acc =
        acc ++ (l.filter (fun a => !p a)).map g := by
  intro l
  induction l with
  | nil => intro acc; simp
  | cons a l ih =>
    intro acc
    by_cases h : p a = true
    · simp [List.foldl_cons, h, ih, List.filter_cons]
    · simp only [Bool.not_eq_true] at h
      simp [List.foldl_cons, h, ih, List.filter_cons]

theorem dropEntry_iff (parse : String → Option Nat) (cutoff : Nat) (e : Entry) :
    dropEntry parse cutoff e = true ↔
      ∃ d, parse (e.published.getD "") = some d ∧ d < cutoff := by
  unfold dropEntry
  cases h : parse (e.published.getD "") with
  | none => simp [h]
  | some d => simp [h]

theorem processEntries_eq (parse : String → Option Nat) (cutoff : Nat)
    (sn si cat : String) (entries : List Entry) :
    processEntries parse cutoff sn si cat entries =
      (entries.filter (fun e => !dropEntry parse cutoff e)).map
        (entryArticle parse sn si cat) := by
  unfold processEntries
  simpa using foldl_drop_eq (dropEntry parse cutoff) (entryArticle parse sn si cat) entries []

theorem tryFormats_eq_none (st : String → String → Except Unit Nat) (s : String) :
    ∀ fmts : List String,
      tryFormats st s fmts = none ↔ ∀ fmt ∈ fmts, st s fmt = Except.error () := by
  intro fmts
  induction fmts with
  | nil => simp [tryFormats]
  | cons fmt rest ih =>
    rw [tryFormats]
    cases h : st s fmt with
    | ok d => simp [h]
    | error u => cases u; simp [h, ih]

theorem updateBucket_fst (m : List (String × Bucket)) (t : String) (f : Bucket → Bucket) :
    (updateBucket m t f).map Prod.fst = m.map Prod.fst := by
  induction m with
  | nil => rfl
  | cons p m ih =>
    by_cases h : p.1 = t <;> simp [updateBucket, h, List.map_cons] <;>
      simpa [updateBucket] using ih

theorem innerFold_fst (F : String → Bucket → Bucket) :
    ∀ (ts : List String) (res : List (String × Bucket)),
      ((ts.foldl (fun res t => updateBucket res t (F t)) res).map Prod.fst) =
        res.map Prod.fst := by
  intro ts
  induction ts with
  | nil => intro res; rfl
  | cons t ts ih => intro res; rw [List.foldl_cons, ih, updateBucket_fst]

theorem processArticleSentiment_fst (tickersD : List String) (classify : String → Sentiment)
    (res : List (String × Bucket)) (a : Article) :
    (processArticleSentiment tickersD classify res a).map Prod.fst = res.map Prod.fst := by
  unfold processArticleSentiment
  by_cases h :
      (tickersD.filter (fun t => pySearchWord t (a.title ++ " " ++ a.summary))).isEmpty
  · simp [h]
  · simp only [h]
    rw [if_neg (by simp [h])]
    exact innerFold_fst _ _ res

theorem outerFold_fst (tickersD : List String) (classify : String → Sentiment) :
    ∀ (articles : List Article) (init : List (String × Bucket)),
      ((articles.foldl (processArticleSentiment tickersD classify) init).map Prod.fst) =
        init.map Prod.fst := by
  intro articles
  induction articles with
  | nil => intro init; rfl
  | cons a articles ih =>
    intro init
    rw [List.foldl_cons, ih, processArticleSentiment_fst]

theorem lookup_updateBucket_ne (m : List (String × Bucket)) (t t' : String)
    (f : Bucket → Bucket) (h : t ≠ t') :
    List.lookup t (updateBucket m t' f) = List.lookup t m := by
  induction m with
  | nil => rfl
  | cons p m ih =>
    obtain ⟨k, v⟩ := p
    have hh : updateBucket ((k, v) :: m) t' f =
        (if k = t' then (k, f v) else (k, v)) :: updateBucket m t' f := by
      simp [updateBucket]
    rw [hh]
    by_cases hk : k = t'
    · have ht : (t == k) = false :=
        beq_eq_false_iff_ne.mpr (fun hc => h (hc.trans hk))
      rw [if_pos hk]
      simp [List.lookup, ht, ih]
    · rw [if_neg hk]
      by_cases htk : t = k
      · simp [List.lookup, beq_iff_eq, htk]
      · have ht : (t == k) = false := beq_eq_false_iff_ne.mpr htk
        simp [List.lookup, ht, ih]

theorem lookup_innerFold_notMem (F : String → Bucket → Bucket) (t : String) :
    ∀ (ts : List String) (res : List (String × Bucket)), t ∉ ts →
      List.lookup t (ts.foldl (fun res u => updateBucket res u (F u)) res) =
        List.lookup t res := by
  intro ts
  induction ts with
  | nil => intro res _; rfl
  | cons u ts ih =>
    intro res hmem
    rw [List.foldl_cons, ih _ (fun hc => hmem (List.mem_cons_of_mem u hc)),
      lookup_updateBucket_ne _ _ _ _
        (fun hc => hmem (by rw [hc]; exact List.mem_cons_self u ts))]

theorem lookup_processArticleSentiment (tickersD : List String) (classify : String → Sentiment)
    (res : List (String × Bucket)) (a : Article) (t : String)
    (h : pySearchWord t (a.title ++ " " ++ a.summary) = false) :
    List.lookup t (processArticleSentiment tickersD classify res a) = List.lookup t res := by
  unfold processArticleSentiment
  by_cases hm :
      (tickersD.filter (fun u => pySearchWord u (a.title ++ " " ++ a.summary))).isEmpty
  · simp [hm]
  · simp only [hm]
    rw [if_neg (by simp [hm])]
    refine lookup_innerFold_notMem _ _ _ _ (fun hc => ?_)
    rw [List.mem_filter] at hc
    rw [hc.2] at h
    exact Bool.true_eq_false.mp h

theorem lookup_init_emptyBucket (t : String) :
    ∀ ts : List String, t ∈ ts →
      List.lookup t (ts.map (fun u => (u, emptyBucket))) = some emptyBucket := by
  intro ts
  induction ts with
  | nil => intro h; cases h
  | cons u ts ih =>
    intro h
    by_cases ht : t = u
    · have ht' : (t == u) = true := beq_iff_eq.mpr ht
      simp [List.lookup, ht']
    · have hts : t ∈ ts := by
        cases h with
        | head => exact absurd rfl ht
        | tail _ h => exact h
      have ht' : (t == u) = false := beq_eq_false_iff_ne.mpr ht
      simp [List.lookup, ht', ih hts]

theorem lookup_outerFold (tickersD : List String) (classify : String → Sentiment) (t : String) :
    ∀ (articles : List Article) (init : List (String × Bucket)),
      (∀ a ∈ articles, pySearchWord t (a.title ++ " " ++ a.summary) = false) →
      List.lookup t (articles.foldl (processArticleSentiment tickersD classify) init) =
        List.lookup t init := by
  intro articles
  induction articles with
  | nil => intro init _; rfl
  | cons a articles ih =>
    intro init h
    rw [List.foldl_cons, ih _ (fun b hb => h b (List.mem_cons_of_mem a hb)),
      lookup_processArticleSentiment _ _ _ _ _ (h a (List.mem_cons_self a articles))]

/-- The counting invariant of a bucket: each counter equals the number of its
recorded articles carrying that label. -/
def bucketCounts (b : Bucket) : Prop :=
  b.positive = b.articles.countP (fun r => r.sentiment == Sentiment.positive) ∧
  b.negative = b.articles.countP (fun r => r.sentiment == Sentiment.negative) ∧
  b.neutral = b.articles.countP (fun r => r.sentiment == Sentiment.neutral)

theorem bucketCounts_empty : bucketCounts emptyBucket := by
  refine ⟨rfl, rfl, rfl⟩

theorem bucketCounts_bump (b : Bucket) (s : Sentiment) (r : SentRecord)
    (hr : r.sentiment = s) (h : bucketCounts b) : bucketCounts (bumpBucket b s r) := by
  obtain ⟨h1, h2, h3⟩ := h
  cases s <;>
    simp [bumpBucket, bucketCounts, List.countP_append, List.countP_cons, hr, h1, h2, h3,
      List.countP_nil]

theorem updateBucket_counts (m : List (String × Bucket)) (t : String) (f : Bucket → Bucket)
    (hf : ∀ b, bucketCounts b → bucketCounts (f b))
    (h : ∀ p ∈ m, bucketCounts p.2) : ∀ p ∈ updateBucket m t f, bucketCounts p.2 := by
  intro p hp
  unfold updateBucket at hp
  rw [List.mem_map] at hp
  obtain ⟨q, hq, hqp⟩ := hp
  by_cases hk : q.1 = t
  · rw [if_pos hk] at hqp
    rw [← hqp]
    exact hf _ (h q hq)
  · rw [if_neg hk] at hqp
    rw [← hqp]
    exact h q hq

theorem innerFold_counts (F : String → Bucket → Bucket)
    (hF : ∀ t b, bucketCounts b → bucketCounts (F t b)) :
    ∀ (ts : List String) (res : List (String × Bucket)),
      (∀ p ∈ res, bucketCounts p.2) →
      ∀ p ∈ ts.foldl (fun res t => updateBucket res t (F t)) res, bucketCounts p.2 := by
  intro ts
  induction ts with
  | nil => intro res h; exact h
  | cons t ts ih =>
    intro res h
    rw [List.foldl_cons]
    exact ih _ (updateBucket_counts _ _ _ (hF t) h)

theorem processArticleSentiment_counts (tickersD : List String)
    (classify : String → Sentiment) (res : List (String × Bucket)) (a : Article)
    (h : ∀ p ∈ res, bucketCounts p.2) :
    ∀ p ∈ processArticleSentiment tickersD classify res a, bucketCounts p.2 := by
  unfold processArticleSentiment
  by_cases hm :
      (tickersD.filter (fun u => pySearchWord u (a.title ++ " " ++ a.summary))).isEmpty
  · simp only [hm, if_pos]
    exact h
  · simp only [hm]
    rw [if_neg (by simp [hm])]
    exact innerFold_counts
      (fun _ b => bumpBucket b (classify (a.title ++ " " ++ a.summary))
        ⟨a.title, classify (a.title ++ " " ++ a.summary), a.source, a.link⟩)
      (fun t b hb => bucketCounts_bump _ _ _ rfl hb) _ _ h

theorem outerFold_counts (tickersD : List String) (classify : String → Sentiment) :
    ∀ (articles : List Article) (init : List (String × Bucket)),
      (∀ p ∈ init, bucketCounts p.2) →
      ∀ p ∈ articles.foldl (processArticleSentiment tickersD classify) init,
        bucketCounts p.2 := by
  intro articles
  induction articles with
  | nil => intro init h; exact h
  | cons a articles ih =>
    intro init h
    rw [List.foldl_cons]
    exact ih _ (processArticleSentiment_counts _ _ _ _ h)

theorem countP_sentiment_sum : ∀ l : List SentRecord,
    l.countP (fun r => r.sentiment == Sentiment.positive) +
      l.countP (fun r => r.sentiment == Sentiment.negative) +
      l.countP (fun r => r.sentiment == Sentiment.neutral) = l.length := by
  intro l
  induction l with
  | nil => rfl
  | cons r l ih =>
    cases hr : r.sentiment <;> simp [List.countP_cons, hr] <;> omega

theorem pySearchWord_eq_decide (w t : String) :
    pySearchWord w t = decide (MentionsWord w t) := by
  by_cases h : MentionsWord w t
  · rw [decide_eq_true h, (searchWord_iff w t).mpr h]
  · rw [decide_eq_false h]
    cases hc : pySearchWord w t with
    | false => rfl
    | true => exact absurd ((searchWord_iff w t).mp hc) h

theorem pySearchSub_eq_decide (w t : String) :
    pySearchSub w t = decide (MentionsSub w t) := by
  by_cases h : MentionsSub w t
  · rw [decide_eq_true h, (searchSub_iff w t).mpr h]
  · rw [decide_eq_false h]
    cases hc : pySearchSub w t with
    | false => rfl
    | true => exact absurd ((searchSub_iff w t).mp hc) h

theorem any_searchWord_eq_decide (l : List String) (c : String) :
    l.any (fun t => pySearchWord t c) = decide (∃ t ∈ l, MentionsWord t c) := by
  by_cases h : ∃ t ∈ l, MentionsWord t c
  · rw [decide_eq_true h]
    obtain ⟨t, ht, hm⟩ := h
    exact List.any_eq_true.mpr ⟨t, ht, (searchWord_iff t c).mpr hm⟩
  · rw [decide_eq_false h]
    cases hc : l.any (fun t => pySearchWord t c) with
    | false => rfl
    | true =>
      obtain ⟨t, ht, hm⟩ := List.any_eq_true.mp hc
      exact absurd ⟨t, ht, (searchWord_iff t c).mp hm⟩ h

theorem any_searchSub_eq_decide (l : List String) (c : String) :
    l.any (fun k => pySearchSub k c) = decide (∃ k ∈ l, MentionsSub k c) := by
  by_cases h : ∃ k ∈ l, MentionsSub k c
  · rw [decide_eq_true h]
    obtain ⟨k, hk, hm⟩ := h
    exact List.any_eq_true.mpr ⟨k, hk, (searchSub_iff k c).mpr hm⟩
  · rw [decide_eq_false h]
    cases hc : l.any (fun k => pySearchSub k c) with
    | false => rfl
    | true =>
      obtain ⟨k, hk, hm⟩ := List.any_eq_true.mp hc
      exact absurd ⟨k, hk, (searchSub_iff k c).mp hm⟩ h

/-! ## Sample data used by concrete witnesses -/

/-- An article mentioning no ticker. -/
def artNoTsla : Article :=
  { title := "Weather report", link := "l0", summary := "Sunny day ahead",
    published := "d0", published_parsed := none, source := "S0", source_id := "s0",
    category := "General" }

/-- An article mentioning TSLA with positive wording. -/
def artTslaUp : Article :=
  { title := "TSLA up", link := "l1", summary := "big gain", published := "d1",
    published_parsed := some 100, source := "S1", source_id := "s1", category := "Markets" }

/-- A date-parse oracle used for concrete fetch runs: two known strings parse,
everything else fails. -/
def sampleParse : String → Option Nat := fun s =>
  if s = "at-cutoff" then some 50
  else if s = "older" then some 49
  else if s = "good-date" then some 100
  else none

def entAtCutoff : Entry := ⟨some "T1", some "L1", some "S1", none, some "at-cutoff"⟩

def entOlder : Entry := ⟨some "T2", some "L2", some "S2", none, some "older"⟩

def entUnparseable : Entry := ⟨some "T3", some "L3", some "S3", none, some "junk"⟩

def entGoodDate : Entry := ⟨some "Dated story", some "L4", some "S4", none, some "good-date"⟩

def sampleFeed : FeedBatch := ⟨"Reuters", "reuters", "Markets", [entGoodDate, entUnparseable]⟩

/-! ## Claims -/

/-- C1: the claim says `fetch_news` output is sorted by the normalized
timestamp descending with unparseable-date articles sorting as oldest via a
minimal sentinel.  The code instead always stores the `'published_parsed'`
key (possibly `None`), so the `datetime.min` default of the sort key's
`dict.get` is dead, and sorting a batch that mixes a dated and an undated
article compares `None` against a `datetime`: a `TypeError` escapes
`fetch_news`.  This theorem evaluates the embedded code at such a failing
input: one entry with a parseable date and one without. -/
theorem c1_fetch_sort_raises :
    fetch_news sampleParse 50 [sampleFeed] = Except.error () ∧
    processEntries sampleParse 50 "Reuters" "reuters" "Markets" [entGoodDate, entUnparseable] =
      [entryArticle sampleParse "Reuters" "reuters" "Markets" entGoodDate,
       entryArticle sampleParse "Reuters" "reuters" "Markets" entUnparseable] := by
  constructor <;> rfl

/-- C3 counterexample: on `"gain gain down"` the code counts the repeated
word `gain` once (presence, not occurrences), giving 1 positive vs 1 negative
and hence `neutral`; the claim's all-occurrences counting gives 2 vs 1 and
hence `positive`.  So the classification is not the all-occurrences rule the
claim states. -/
theorem c3_counterexample :
    analyze_article_sentiment "gain gain down" = Sentiment.neutral ∧
    claimC3_sentiment "gain gain down" = Sentiment.positive ∧
    analyze_article_sentiment "gain gain down" ≠ claimC3_sentiment "gain gain down" := by
  refine ⟨rfl, rfl, ?_⟩
  have h1 : analyze_article_sentiment "gain gain down" = Sentiment.neutral := rfl
  have h2 : claimC3_sentiment "gain gain down" = Sentiment.positive := rfl
  rw [h1, h2]
  exact fun h => Sentiment.noConfusion h

/-- C3 (amended): the rule-based classifier lower-cases the text and counts,
for each fixed listed word, whether it occurs as a whole word (each distinct
listed word contributing at most one, however often it repeats), then returns
positive/negative/neutral by comparing the two presence counts (ties,
including 0 vs 0, are neutral). -/
theorem c3_presence_classification (text : String) :
    analyze_article_sentiment text =
      (let positive_present := positive_words.countP (fun w => decide (MentionsWord w text))
       let negative_present := negative_words.countP (fun w => decide (MentionsWord w text))
       if negative_present < positive_present then Sentiment.positive
       else if positive_present < negative_present then Sentiment.negative
       else Sentiment.neutral) := by
  unfold analyze_article_sentiment
  rw [funext (fun w => pySearchWord_eq_decide w text)]

/-- C5: an entry is dropped by the fetch loop exactly when its date parses
and the result is strictly older than the cutoff; the per-feed loop equals
filtering the entries by that condition and building one article per
survivor, in order.  An entry dated exactly at the cutoff is retained, and an
unparseable date is retained. -/
theorem c5_cutoff (parse : String → Option Nat) (cutoff : Nat) (sn si cat : String)
    (entries : List Entry) :
    (∀ e : Entry, dropEntry parse cutoff e = true ↔
      ∃ d, parse (e.published.getD "") = some d ∧ d < cutoff) ∧
    processEntries parse cutoff sn si cat entries =
      (entries.filter (fun e => !dropEntry parse cutoff e)).map (entryArticle parse sn si cat) ∧
    (∀ e : Entry, parse (e.published.getD "") = some cutoff →
      dropEntry parse cutoff e = false) ∧
    (∀ e : Entry, parse (e.published.getD "") = none →
      dropEntry parse cutoff e = false) := by
  refine ⟨dropEntry_iff parse cutoff, processEntries_eq parse cutoff sn si cat entries, ?_, ?_⟩
  · intro e he
    unfold dropEntry
    rw [he]
    simp
  · intro e he
    unfold dropEntry
    rw [he]

/-- Witness for C5 at concrete entries: an entry dated exactly at the cutoff
and an unparseable one are retained; one dated a tick older is dropped. -/
theorem c5_witness :
    dropEntry sampleParse 50 entOlder = true ∧
    dropEntry sampleParse 50 entAtCutoff = false ∧
    dropEntry sampleParse 50 entUnparseable = false :=
  ⟨((c5_cutoff sampleParse 50 "S" "s" "C" []).1 entOlder).mpr ⟨49, rfl, by decide⟩,
   (c5_cutoff sampleParse 50 "S" "s" "C" []).2.2.1 entAtCutoff rfl,
   (c5_cutoff sampleParse 50 "S" "s" "C" []).2.2.2 entUnparseable rfl⟩

/-- C8: with `filter_by_preferences` false, `filter_articles` returns its
input unchanged; the same holds with the flag true when both the ticker and
the keyword lists are empty. -/
theorem c8_filter_identity (tickers keywords : List String) (articles : List Article) :
    filter_articles tickers keywords articles false = articles ∧
    (tickers = [] → keywords = [] →
      filter_articles tickers keywords articles true = articles) := by
  constructor
  · unfold filter_articles
    cases articles with
    | nil => simp
    | cons a l => simp
  · intro ht hk
    unfold filter_articles
    cases articles with
    | nil => simp
    | cons a l => simp [ht, hk]

/-- Witness for C8 at a concrete list and empty criteria. -/
theorem c8_witness :
    filter_articles [] [] [artTslaUp] false = [artTslaUp] ∧
    filter_articles [] [] [artTslaUp] true = [artTslaUp] :=
  ⟨(c8_filter_identity [] [] [artTslaUp]).1,
   (c8_filter_identity [] [] [artTslaUp]).2 rfl rfl⟩

/-- C9: `_parse_date` (with the external `feedparser._parse_date`, `datetime`
construction and `strptime` as oracles that may raise) returns `None` exactly
when the input is empty or every attempt fails — every exception path is
caught, so the function only ever returns a timestamp or `None` — and a
successful first attempt is returned as is. -/
theorem c9_parse_date_total
    (fp : String → Except Unit (Option (Nat × Nat × Nat × Nat × Nat × Nat)))
    (mk : Nat × Nat × Nat × Nat × Nat × Nat → Except Unit Nat)
    (st : String → String → Except Unit Nat) (s : String) :
    (parse_date fp mk st s = none ↔
      s = "" ∨ (firstAttempt fp mk s = none ∧
        ∀ fmt ∈ date_formats, st s fmt = Except.error ())) ∧
    (∀ d, s ≠ "" → firstAttempt fp mk s = some d → parse_date fp mk st s = some d) := by
  constructor
  · unfold parse_date
    by_cases hs : s = ""
    · simp [hs]
    · rw [if_neg hs]
      cases hf : firstAttempt fp mk s with
      | some d => simp [hs, hf]
      | none => simp [hs, hf, tryFormats_eq_none]
  · intro d hs hf
    unfold parse_date
    rw [if_neg hs, hf]

/-- Witness for C9: concrete all-failing oracles give `None` on a malformed
string; a concrete successful `feedparser` attempt is returned. -/
theorem c9_witness :
    parse_date (fun _ => Except.error ()) (fun _ => Except.error ())
      (fun _ _ => Except.error ()) "not a date" = none ∧
    parse_date (fun _ => Except.ok (some (2024, 10, 1, 12, 0, 0))) (fun _ => Except.ok 777)
      (fun _ _ => Except.error ()) "Tue, 01 Oct 2024 12:00:00 GMT" = some 777 := by
  constructor
  · exact (c9_parse_date_total _ _ _ _).1.mpr (Or.inr ⟨rfl, fun fmt _ => rfl⟩)
  · exact (c9_parse_date_total _ _ _ _).2 777 (by decide) rfl

theorem notBothEmpty {tickers keywords : List String} (h : ¬(tickers = [] ∧ keywords = [])) :
    (tickers.isEmpty && keywords.isEmpty) = false := by
  cases tickers with
  | nil =>
    cases keywords with
    | nil => exact absurd ⟨rfl, rfl⟩ h
    | cons k ks => rfl
  | cons t ts => rfl

/-- C6: with the filter active and at least one criterion configured, an
article is kept exactly when the combined `title + " " + summary` text
matches some ticker as a whole word (case-insensitively) or contains some
keyword as a substring (case-insensitively), patterns being literal text;
the result is a `List.filter`, so kept articles stay in input order. -/
theorem c6_filter_or (tickers keywords : List String) (articles : List Article)
    (h : ¬(tickers = [] ∧ keywords = [])) :
    filter_articles tickers keywords articles true =
      articles.filter (fun a =>
        decide (∃ t ∈ tickers, MentionsWord t (a.title ++ " " ++ a.summary)) ||
        decide (∃ k ∈ keywords, MentionsSub k (a.title ++ " " ++ a.summary))) := by
  have hne := notBothEmpty h
  have hstep : ∀ x : Article, keepArticle tickers keywords x =
      (decide (∃ t ∈ tickers, MentionsWord t (x.title ++ " " ++ x.summary)) ||
       decide (∃ k ∈ keywords, MentionsSub k (x.title ++ " " ++ x.summary))) := by
    intro x
    unfold keepArticle
    simp only [any_searchWord_eq_decide, any_searchSub_eq_decide, hne, Bool.or_false]
  cases articles with
  | nil => rfl
  | cons a l =>
    have e1 : filter_articles tickers keywords (a :: l) true =
        (a :: l).foldl (fun filtered article =>
          if keepArticle tickers keywords article then filtered ++ [article]
          else filtered) [] := by
      unfold filter_articles
      simp [hne]
    rw [e1, foldl_keep_eq (keepArticle tickers keywords) (fun x => x)]
    simp only [List.nil_append, List.map_id']
    exact List.filter_congr (fun x _ => hstep x)

/-- Witness for C6: with ticker AAPL and keyword merger, a title-mention
article is kept, a non-matching one is dropped, in order. -/
theorem c6_witness :
    filter_articles ["AAPL"] ["merger"]
        [{ artNoTsla with title := "AAPL rallies" }, artNoTsla] true =
      [{ artNoTsla with title := "AAPL rallies" }] := by
  rw [c6_filter_or ["AAPL"] ["merger"]
    [{ artNoTsla with title := "AAPL rallies" }, artNoTsla] (by simp)]
  decide

/-- C7: with at least one criterion configured, `rank_articles` returns the
scored articles sorted descending by `relevance_score` (`scoreGE`), as a
permutation of the scored input, and stably: for every score value the
articles holding it keep their input order (their filtered subsequences
agree).  With both criteria empty the input is returned unchanged, unscored. -/
theorem c7_rank_sorted_stable (tickers keywords : List String) (articles : List Article) :
    (¬(tickers = [] ∧ keywords = []) →
      List.Sorted scoreGE (rank_articles tickers keywords articles) ∧
      List.Perm (rank_articles tickers keywords articles)
        (articles.map (assignScore tickers keywords)) ∧
      ∀ n : Nat,
        (rank_articles tickers keywords articles).filter (fun a => scoreKey a == n) =
          (articles.map (assignScore tickers keywords)).filter
            (fun a => scoreKey a == n)) ∧
    (tickers = [] → keywords = [] → rank_articles tickers keywords articles = articles) := by
  constructor
  · intro h
    have hne := notBothEmpty h
    cases articles with
    | nil =>
      refine ⟨by simp [rank_articles], by simp [rank_articles], fun n => by simp [rank_articles]⟩
    | cons a l =>
      have e1 : rank_articles tickers keywords (a :: l) =
          List.insertionSort scoreGE ((a :: l).map (assignScore tickers keywords)) := by
        unfold rank_articles
        simp [hne]
        rfl
      rw [e1]
      exact ⟨List.sorted_insertionSort scoreGE _, List.perm_insertionSort scoreGE _,
        fun n => insertionSort_filter_score n _⟩
  · intro ht hk
    unfold rank_articles
    cases articles with
    | nil => simp
    | cons a l => simp [ht, hk]

/-- Witness for C7: two equal-scored articles keep their input order after
ranking; empty criteria return the input unchanged. -/
theorem c7_witness :
    (rank_articles ["TSLA"] [] [artTslaUp, { artTslaUp with title := "TSLA up again" }]).filter
        (fun a => scoreKey a == 3) =
      ([artTslaUp, { artTslaUp with title := "TSLA up again" }].map
        (assignScore ["TSLA"] [])).filter (fun a => scoreKey a == 3) ∧
    rank_articles [] [] [artTslaUp, artNoTsla] = [artTslaUp, artNoTsla] :=
  ⟨((c7_rank_sorted_stable ["TSLA"] []
      [artTslaUp, { artTslaUp with title := "TSLA up again" }]).1 (by simp)).2.2 3,
   (c7_rank_sorted_stable [] [] [artTslaUp, artNoTsla]).2 rfl rfl⟩

/-- C4: with at least one criterion configured, every ranked article carries
`relevance_score = total ticker matches in title-plus-summary + total keyword
matches there + 2 x (ticker matches in the title alone + keyword matches in
the title alone)`; consequently a lone ticker occurrence in the title is
worth 3 while the same occurrence in the body alone is worth 1. -/
theorem c4_score_formula (tickers keywords : List String) (articles : List Article)
    (h : ¬(tickers = [] ∧ keywords = [])) :
    (∀ a ∈ rank_articles tickers keywords articles,
      a.relevance_score = some
        ((tickers.map (fun t => pyCountWord t (a.title ++ " " ++ a.summary))).sum +
         (keywords.map (fun w => pyCountSub w (a.title ++ " " ++ a.summary))).sum +
         2 * ((tickers.map (fun t => pyCountWord t a.title)).sum +
              (keywords.map (fun w => pyCountSub w a.title)).sum))) ∧
    (∀ title summary : String,
      (tickers.map (fun t => pyCountWord t (title ++ " " ++ summary))).sum = 1 →
      (tickers.map (fun t => pyCountWord t title)).sum = 1 →
      (keywords.map (fun w => pyCountSub w (title ++ " " ++ summary))).sum = 0 →
      (keywords.map (fun w => pyCountSub w title)).sum = 0 →
      relevance_score_of tickers keywords title summary = 3) ∧
    (∀ title summary : String,
      (tickers.map (fun t => pyCountWord t (title ++ " " ++ summary))).sum = 1 →
      (tickers.map (fun t => pyCountWord t title)).sum = 0 →
      (keywords.map (fun w => pyCountSub w (title ++ " " ++ summary))).sum = 0 →
      (keywords.map (fun w => pyCountSub w title)).sum = 0 →
      relevance_score_of tickers keywords title summary = 1) := by
  have hne := notBothEmpty h
  refine ⟨?_, ?_, ?_⟩
  · intro a ha
    cases articles with
    | nil => simp [rank_articles] at ha
    | cons b l =>
      have e1 : rank_articles tickers keywords (b :: l) =
          List.insertionSort scoreGE ((b :: l).map (assignScore tickers keywords)) := by
        unfold rank_articles
        simp [hne]
        rfl
      rw [e1, List.mem_insertionSort, List.mem_map] at ha
      obtain ⟨a0, _, rfl⟩ := ha
      show (assignScore tickers keywords a0).relevance_score = _
      simp only [assignScore, relevance_score_of]
      congr 1
      omega
  · intro title summary h1 h2 h3 h4
    simp [relevance_score_of, h1, h2, h3, h4]
  · intro title summary h1 h2 h3 h4
    simp [relevance_score_of, h1, h2, h3, h4]

/-- Witness for C4: a title occurrence of AAPL scores 3, the same occurrence
in the body alone scores 1. -/
theorem c4_witness :
    relevance_score_of ["AAPL"] [] "AAPL rallies" "no mention here" = 3 ∧
    relevance_score_of ["AAPL"] [] "Tech news" "AAPL rallies today" = 1 :=
  ⟨(c4_score_formula ["AAPL"] [] [] (by simp)).2.1 "AAPL rallies" "no mention here"
      rfl rfl rfl rfl,
   (c4_score_formula ["AAPL"] [] [] (by simp)).2.2 "Tech news" "AAPL rallies today"
      rfl rfl rfl rfl⟩

/-- C2 counterexample: the claim requires
`analyze(articles=[], tickers=["TSLA"])` to return the one-bucket mapping
with zero counts, but the code's `if not articles: return {}` short-circuit
returns the empty mapping. -/
theorem c2_counterexample :
    analyze_sentiment ["TSLA"] (fun _ => Sentiment.neutral) [] = [] ∧
    analyze_sentiment ["TSLA"] (fun _ => Sentiment.neutral) [] ≠ [("TSLA", emptyBucket)] := by
  refine ⟨rfl, ?_⟩
  intro hc
  rw [show analyze_sentiment ["TSLA"] (fun _ => Sentiment.neutral) [] = [] from rfl] at hc
  exact List.noConfusion hc

/-- C2 (amended): for a NON-EMPTY article list and non-empty tickers, the
result has exactly one bucket per distinct configured ticker (first
occurrences, in order), and a ticker no article mentions keeps the all-zero
bucket with an empty article list; for an empty article list the code
returns the empty mapping instead. -/
theorem c2_buckets (tickers : List String) (classify : String → Sentiment)
    (articles : List Article) (h1 : articles ≠ []) (h2 : tickers ≠ []) :
    (analyze_sentiment tickers classify articles).map Prod.fst = dedupKeys tickers ∧
    (∀ t ∈ tickers,
      (∀ a ∈ articles, ¬ MentionsWord t (a.title ++ " " ++ a.summary)) →
      List.lookup t (analyze_sentiment tickers classify articles) = some emptyBucket) := by
  have hae : articles.isEmpty = false := by
    cases articles with
    | nil => exact absurd rfl h1
    | cons a l => rfl
  have hte : tickers.isEmpty = false := by
    cases tickers with
    | nil => exact absurd rfl h2
    | cons t ts => rfl
  have e1 : analyze_sentiment tickers classify articles =
      articles.foldl (processArticleSentiment (dedupKeys tickers) classify)
        ((dedupKeys tickers).map (fun t => (t, emptyBucket))) := by
    unfold analyze_sentiment
    simp [hae, hte]
  constructor
  · rw [e1, outerFold_fst, List.map_map]
    have hcomp : (Prod.fst ∘ fun t : String => (t, emptyBucket)) = id := rfl
    rw [hcomp, List.map_id]
  · intro t ht hnm
    have hf : ∀ a ∈ articles, pySearchWord t (a.title ++ " " ++ a.summary) = false := by
      intro a ha
      cases hc : pySearchWord t (a.title ++ " " ++ a.summary) with
      | false => rfl
      | true => exact absurd ((searchWord_iff _ _).mp hc) (hnm a ha)
    rw [e1, lookup_outerFold _ _ _ _ _ hf,
      lookup_init_emptyBucket t (dedupKeys tickers) ((mem_dedupKeys tickers t).mpr ht)]

/-- Witness for C2 on a concrete run: one configured ticker, one article that
never mentions it; the bucket is present with all-zero counts. -/
theorem c2_witness :
    (analyze_sentiment ["TSLA"] analyze_article_sentiment [artNoTsla]).map Prod.fst =
      ["TSLA"] ∧
    List.lookup "TSLA" (analyze_sentiment ["TSLA"] analyze_article_sentiment [artNoTsla]) =
      some emptyBucket := by
  have h := c2_buckets ["TSLA"] analyze_article_sentiment [artNoTsla]
    (by simp) (by simp)
  exact ⟨h.1.trans rfl, h.2 "TSLA" (by simp) (by decide)⟩

/-- C10: in every bucket of every `analyze_sentiment` result, each sentiment
counter equals the number of recorded articles carrying that label, and the
three counters sum to the length of the bucket's article list. -/
theorem c10_bucket_invariant (tickers : List String) (classify : String → Sentiment)
    (articles : List Article) :
    ∀ t b, (t, b) ∈ analyze_sentiment tickers classify articles →
      b.positive = b.articles.countP (fun r => r.sentiment == Sentiment.positive) ∧
      b.negative = b.articles.countP (fun r => r.sentiment == Sentiment.negative) ∧
      b.neutral = b.articles.countP (fun r => r.sentiment == Sentiment.neutral) ∧
      b.positive + b.negative + b.neutral = b.articles.length := by
  intro t b hmem
  unfold analyze_sentiment at hmem
  by_cases hae : articles.isEmpty = true
  · rw [if_pos hae] at hmem
    exact absurd hmem (List.not_mem_nil _)
  · rw [if_neg hae] at hmem
    by_cases hte : tickers.isEmpty = true
    · rw [if_pos hte] at hmem
      exact absurd hmem (List.not_mem_nil _)
    · rw [if_neg hte] at hmem
      have hinit : ∀ p ∈ (dedupKeys tickers).map (fun u => (u, emptyBucket)),
          bucketCounts p.2 := by
        intro p hp
        rw [List.mem_map] at hp
        obtain ⟨u, _, rfl⟩ := hp
        exact bucketCounts_empty
      have hw := outerFold_counts (dedupKeys tickers) classify articles _ hinit (t, b) hmem
      obtain ⟨w1, w2, w3⟩ := hw
      refine ⟨w1, w2, w3, ?_⟩
      rw [w1, w2, w3]
      exact countP_sentiment_sum b.articles

/-- Witness for C10 on a concrete run: the TSLA bucket of one
positive-classified article satisfies the counting invariant. -/
theorem c10_witness :
    (1 : Nat) = [(⟨"TSLA up", Sentiment.positive, "S1", "l1"⟩ : SentRecord)].countP
        (fun r => r.sentiment == Sentiment.positive) ∧
    (1 : Nat) + 0 + 0 =
      [(⟨"TSLA up", Sentiment.positive, "S1", "l1"⟩ : SentRecord)].length := by
  have h := c10_bucket_invariant ["TSLA"] analyze_article_sentiment [artTslaUp]
    "TSLA" ⟨1, 0, 0, [⟨"TSLA up", Sentiment.positive, "S1", "l1"⟩]⟩ (by decide)
  exact ⟨h.1, h.2.2.2⟩
